import Mathlib

/-!
Verification of the SARIF result ingestion and normalization logic of the
blocksecops-cli editor integrations (VS Code, Neovim/Lua, IntelliJ).

Each integration is shallowly embedded as pure Lean functions over a common
SARIF data model.  Optional JSON fields become `Option` fields; JSON decode
failure is modelled by passing `none` where the source receives a decode
error (the sources branch on the decode result immediately, so this is
faithful to their structure).  SARIF line/column values are natural numbers.
-/

set_option maxRecDepth 40000

/-- One SARIF region: `startLine`, `startColumn`, `endLine`, `endColumn`,
each of which may be absent in the report. -/
structure Region where
  startLine : Option Nat
  startColumn : Option Nat
  endLine : Option Nat
  endColumn : Option Nat
  deriving DecidableEq, Repr

/-- SARIF `artifactLocation`; the `uri` key may be absent. -/
structure ArtifactLocation where
  uri : Option String
  deriving DecidableEq, Repr

/-- SARIF `physicalLocation` with its optional `artifactLocation` and `region`. -/
structure PhysicalLocation where
  artifactLocation : Option ArtifactLocation
  region : Option Region
  deriving DecidableEq, Repr

/-- One entry of a result's `locations` array. -/
structure SarifLocation where
  physicalLocation : Option PhysicalLocation
  deriving DecidableEq, Repr

/-- One entry of `tool.driver.rules`: `id` plus the optional
`shortDescription.text` (flattened to one optional string). -/
structure SarifRule where
  id : String
  shortDescription : Option String
  deriving DecidableEq, Repr

/-- One entry of a run's `results` array.  `messageText` flattens
`message.text`: it is `none` when `message` or `message.text` is absent,
which all three integrations treat identically. -/
structure SarifResultItem where
  ruleId : Option String
  level : Option String
  messageText : Option String
  locations : Option (List SarifLocation)
  deriving DecidableEq, Repr

/-- One entry of the top-level `runs` array.  `rules` flattens
`tool.driver.rules`. -/
structure SarifRun where
  rules : Option (List SarifRule)
  results : Option (List SarifResultItem)
  deriving DecidableEq, Repr

/-- The top-level SARIF report. -/
structure SarifReport where
  version : Option String
  runs : Option (List SarifRun)
  deriving DecidableEq, Repr

/-- The four canonical severities shared by the integrations
(VS Code Error/Warning/Information/Hint, Neovim ERROR/WARN/INFO/HINT). -/
inductive Severity where
  | error
  | warning
  | information
  | hint
  deriving DecidableEq, Repr

-- Equality on `Except` results is decidable, so concrete runs of the
-- IntelliJ parser can be checked by evaluation.
deriving instance DecidableEq for Except

/-- JavaScript `String.prototype.replace` with a plain-string pattern
replaces only the first occurrence of the pattern.  Recursion mirrors the
left-to-right scan: at the first position where `pat` matches, emit `rep`
and the unscanned remainder unchanged. -/
def replaceFirstAux (pat rep : List Char) : List Char → List Char
  | [] => if pat.isPrefixOf ([] : List Char) then rep else []
  | c :: cs =>
    if pat.isPrefixOf (c :: cs) then rep ++ (c :: cs).drop pat.length
    else c :: replaceFirstAux pat rep cs

/-- String wrapper for `replaceFirstAux`. -/
def replaceFirst (pat rep s : String) : String :=
  ⟨replaceFirstAux pat.data rep.data s.data⟩

/-- Java `String.replace(CharSequence, CharSequence)` replaces every
occurrence of the pattern, scanning left to right and continuing after each
replacement.  `skip` counts the remaining characters of an occurrence that
was already matched and replaced, which are discarded without rescanning, so
the scan resumes right after each replaced occurrence; recursion is
structural in the text. -/
def replaceAllGo (pat rep : List Char) : Nat → List Char → List Char
  | _, [] => []
  | 0, c :: cs =>
    if pat.isPrefixOf (c :: cs) then rep ++ replaceAllGo pat rep (pat.length - 1) cs
    else c :: replaceAllGo pat rep 0 cs
  | skip + 1, _ :: cs => replaceAllGo pat rep skip cs

/-- String wrapper for `replaceAllGo`. -/
def replaceAll (pat rep s : String) : String :=
  ⟨replaceAllGo pat.data rep.data 0 s.data⟩

/-- Java `String.endsWith`: `suffix` is a suffix of `s`. -/
def strEndsWith (s suffix : String) : Bool :=
  suffix.data.isSuffixOf s.data

/-- The `file://` scheme text that the integrations strip from artifact URIs. -/
def fileScheme : String := "file://"

/-- VS Code `diagnostics.ts` line 50:
`physLoc.artifactLocation.uri.replace('file://', '')` — JavaScript replaces
the first occurrence. -/
def vscodeStripScheme (s : String) : String :=
  replaceFirst fileScheme "" s

/-- Neovim `blocksecops.lua` line 221:
`phys.artifactLocation.uri:gsub("^file://", "")` — the pattern is anchored,
so only a leading `file://` is removed. -/
def luaStripScheme (s : String) : String :=
  if fileScheme.data.isPrefixOf s.data then ⟨s.data.drop fileScheme.data.length⟩ else s

/-- IntelliJ `BlockSecOpsAction.java` line 292:
`uri.replace("file://", "")` — Java replaces every occurrence. -/
def intellijStripScheme (s : String) : String :=
  replaceAll fileScheme "" s

/-! ## VS Code integration (`diagnostics.ts`, `scanService.ts`, `extension.ts`) -/

namespace VSCode

/-- `diagnostics.ts` `mapSeverity` (lines 75-86): a JavaScript `switch` on the
level string; an absent level hits the `default` arm. -/
def mapSeverity (level : Option String) : Severity :=
  match level with
  | some l =>
    if l = "error" then .error
    else if l = "warning" then .warning
    else if l = "note" then .information
    else .hint
  | none => .hint

/-- The JavaScript idiom `v || d` on an (optional) number: `0`, like an
absent value, is falsy and yields the default. -/
def jsOrNat (v : Option Nat) (d : Nat) : Nat :=
  match v with
  | some n => if n = 0 then d else n
  | none => d

/-- `diagnostics.ts` line 54: `(region?.startLine || 1)`. -/
def resStartLine (region : Option Region) : Nat :=
  jsOrNat (region.bind (·.startLine)) 1

/-- `diagnostics.ts` line 55: `(region?.startColumn || 1)`. -/
def resStartColumn (region : Option Region) : Nat :=
  jsOrNat (region.bind (·.startColumn)) 1

/-- `diagnostics.ts` line 56: `(region?.endLine || region?.startLine || 1)`. -/
def resEndLine (region : Option Region) : Nat :=
  jsOrNat (region.bind (·.endLine)) (resStartLine region)

/-- `diagnostics.ts` line 57: `(region?.endColumn || 999)`. -/
def resEndColumn (region : Option Region) : Nat :=
  jsOrNat (region.bind (·.endColumn)) 999

/-- One `(uri, vscode.Diagnostic)` pair as pushed by
`createDiagnosticsForResult`.  The range stores the four zero-based values
passed to `new vscode.Range`; `message` is `Option` because the JavaScript
fallback chain can produce `undefined` when `ruleId` is absent. -/
structure Diagnostic where
  uri : String
  startLine : Nat
  startColumn : Nat
  endLine : Nat
  endColumn : Nat
  severity : Severity
  message : Option String
  code : Option String
  deriving DecidableEq, Repr

/-- Lookup in the `Map` built at line 17 from the rules list: inserting in
order means a later rule with a duplicate id overwrites an earlier one. -/
def rulesLookup (rules : List SarifRule) (id : String) : Option SarifRule :=
  rules.foldl (fun acc rl => if rl.id = id then some rl else acc) none

/-- JavaScript truthiness of an optional string: the empty string is falsy. -/
def nonEmpty (s : Option String) : Option String :=
  match s with
  | some t => if t = "" then none else some t
  | none => none

/-- `diagnostics.ts` line 63:
`item.message.text || rule?.shortDescription?.text || item.ruleId`. -/
def resolveMessage (item : SarifResultItem) (rules : List SarifRule) : Option String :=
  nonEmpty item.messageText
    <|> nonEmpty ((item.ruleId.bind (rulesLookup rules)).bind (·.shortDescription))
    <|> item.ruleId

/-- `diagnostics.ts` `createDiagnosticsForResult` (lines 38-73): one
diagnostic per location; a location is skipped when
`physLoc?.artifactLocation?.uri` is falsy (absent or empty). -/
def createDiagnosticsForResult (item : SarifResultItem) (rules : List SarifRule) :
    List Diagnostic :=
  (item.locations.getD []).filterMap fun loc =>
    match loc.physicalLocation with
    | none => none
    | some phys =>
      match phys.artifactLocation.bind (·.uri) with
      | none => none
      | some u =>
        if u = "" then none
        else
          some
            { uri := vscodeStripScheme u
              startLine := resStartLine phys.region - 1
              startColumn := resStartColumn phys.region - 1
              endLine := resEndLine phys.region - 1
              endColumn := resEndColumn phys.region - 1
              severity := mapSeverity item.level
              message := resolveMessage item rules
              code := item.ruleId }

/-- `diagnostics.ts` `updateDiagnostics` (lines 11-36): iterate
`result.runs || []`, build the per-run rules map, iterate `run.results || []`
and collect every produced diagnostic.  We model the flat ordered sequence of
`(uri, diagnostic)` pairs the loops produce; the final per-URI grouping into
the editor collection is presentation. -/
def updateDiagnostics (result : SarifReport) : List Diagnostic :=
  (result.runs.getD []).flatMap fun run =>
    (run.results.getD []).flatMap fun item =>
      createDiagnosticsForResult item (run.rules.getD [])

/-- `scanService.ts` `runScan` close handler (lines 114-132): the captured
stdout is parsed only when the exit code is 0 or 1 (`decodedStdout` is the
decode result, `none` when `JSON.parse` throws); any other exit code resolves
`null` without looking at stdout. -/
def runScan (exitCode : Int) (decodedStdout : Option SarifReport) : Option SarifReport :=
  if exitCode = 0 ∨ exitCode = 1 then decodedStdout else none

/-- `extension.ts` `scanCurrentFile`: `updateDiagnostics` runs only when the
scan resolved a report; a `null` result leaves the diagnostic collection as
it was (only the status bar changes). -/
def scanCurrentFile (scanResult : Option SarifReport) (prior : List Diagnostic) :
    List Diagnostic :=
  match scanResult with
  | some r => updateDiagnostics r
  | none => prior

end VSCode

/-! ## Neovim integration (`lua/blocksecops.lua`) -/

namespace Vim

/-- One finding record as built by `parse_finding` (lines 246-254). -/
structure Finding where
  filename : String
  lnum : Nat
  col : Nat
  end_lnum : Option Nat
  level : String
  message : String
  rule_id : String
  deriving DecidableEq, Repr

/-- `blocksecops.lua` `parse_finding` (lines 207-255): only the first
location is examined; a finding with no locations, or whose first location
has no `physicalLocation`, is dropped; the file filter is a plain equality
test; region fields default with `or`/`get`. -/
def parse_finding (result : SarifResultItem) (filter_file : Option String) :
    Option Finding :=
  match result.locations with
  | none => none
  | some [] => none
  | some (location :: _) =>
    match location.physicalLocation with
    | none => none
    | some phys =>
      let file :=
        match phys.artifactLocation.bind (·.uri) with
        | some u => luaStripScheme u
        | none => ""
      match filter_file with
      | some ff =>
        if file ≠ ff then none
        else
          some
            { filename := file
              lnum := (phys.region.bind (·.startLine)).getD 1
              col := (phys.region.bind (·.startColumn)).getD 1
              end_lnum := phys.region.bind (·.endLine)
              level := result.level.getD "warning"
              message := result.messageText.getD ""
              rule_id := result.ruleId.getD "unknown" }
      | none =>
        some
          { filename := file
            lnum := (phys.region.bind (·.startLine)).getD 1
            col := (phys.region.bind (·.startColumn)).getD 1
            end_lnum := phys.region.bind (·.endLine)
            level := result.level.getD "warning"
            message := result.messageText.getD ""
            rule_id := result.ruleId.getD "unknown" }

/-- The inner loop of `parse_sarif` (lines 193-200): a run without a
`results` key is skipped, otherwise its results are parsed in order. -/
def parse_run (run : SarifRun) (filter_file : Option String) : List Finding :=
  match run.results with
  | none => []
  | some results => results.filterMap fun r => parse_finding r filter_file

/-- `blocksecops.lua` `parse_sarif` (lines 182-204): a failed
`pcall(vim.json.decode, ...)` (modelled as `none`) or an absent `runs` key
returns the empty findings list; otherwise every run's `results` are parsed
in order. -/
def parse_sarif (decoded : Option SarifReport) (filter_file : Option String) :
    List Finding :=
  match decoded with
  | none => []
  | some sarif =>
    match sarif.runs with
    | none => []
    | some runs => runs.flatMap fun run => parse_run run filter_file

/-- `blocksecops.lua` `get_severity` (lines 258-265): a table lookup with
`HINT` fallback; indexing the table with an absent key (or `nil`) yields
`nil`, so the fallback applies. -/
def get_severity (level : Option String) : Severity :=
  match level with
  | some l =>
    if l = "error" then .error
    else if l = "warning" then .warning
    else if l = "note" then .information
    else .hint
  | none => .hint

/-- `blocksecops.lua` `process_results` (lines 120-150): `clear_diagnostics`
runs first, then the parsed findings (possibly none) become the new
diagnostic state — the prior state is discarded either way. -/
def process_results (decodedStdout : Option SarifReport) (buf_file : String)
    (_prior : List Finding) : List Finding :=
  parse_sarif decodedStdout (some buf_file)

/-- `blocksecops.lua` `scan_current_file` (lines 59-79): with
`stdout_buffered` the `on_stdout` callback receives the whole captured
stdout once the stream closes — as a non-empty list of lines even for empty
output — so `process_results` runs whatever the exit code; `on_exit` only
decides whether a failure is notified. -/
def scan_current_file_diagnostics (_exitCode : Int) (decodedStdout : Option SarifReport)
    (buf_file : String) (prior : List Finding) : List Finding :=
  process_results decodedStdout buf_file prior

/-- `blocksecops.lua` lines 69-78: the failure notification fires exactly
when the exit code is neither 0 nor 1. -/
def scan_failure_notified (exitCode : Int) : Bool :=
  if exitCode ≠ 0 ∧ exitCode ≠ 1 then true else false

end Vim

/-! ## IntelliJ integration (`BlockSecOpsAction.java`) -/

namespace IntelliJ

/-- The `Finding` class of `BlockSecOpsExternalAnnotator` (lines 330-346). -/
structure Finding where
  ruleId : String
  level : String
  message : String
  startLine : Nat
  endLine : Nat
  startColumn : Nat
  deriving DecidableEq, Repr

/-- `BlockSecOpsAction.java` `parseFinding` (lines 268-308).  `.error ()`
models the unchecked Java exception thrown by
`artifactLocation.get("uri").getAsString()` when `artifactLocation` is
present without a `uri`; `.ok none` is the `return null` skip.  The file
filter runs only when `artifactLocation` is present: stripped uri must equal
`expectedFilePath` or be a suffix of it.  Region defaults: missing
`startLine` is 1, missing `endLine` is the resolved start line, missing
`startColumn` is 0. -/
def parseFinding (result : SarifResultItem) (expectedFilePath : String) :
    Except Unit (Option Finding) :=
  let ruleId := result.ruleId.getD "unknown"
  let level := result.level.getD "warning"
  let message := result.messageText.getD ""
  let mk : PhysicalLocation → Finding := fun phys =>
    match phys.region with
    | some region =>
      { ruleId := ruleId, level := level, message := message
        startLine := region.startLine.getD 1
        endLine := region.endLine.getD (region.startLine.getD 1)
        startColumn := region.startColumn.getD 0 }
    | none =>
      { ruleId := ruleId, level := level, message := message
        startLine := 1, endLine := 1, startColumn := 0 }
  match result.locations with
  | none => .ok none
  | some [] => .ok none
  | some (location :: _) =>
    match location.physicalLocation with
    | none => .ok none
    | some phys =>
      match phys.artifactLocation with
      | some art =>
        match art.uri with
        | none => .error ()
        | some u =>
          let stripped := intellijStripScheme u
          if stripped = expectedFilePath ∨ strEndsWith expectedFilePath stripped then
            .ok (some (mk phys))
          else .ok none
      | none => .ok (some (mk phys))

/-- The `for` loop of `parseFindings` (lines 254-260) together with its
enclosing `try`: an exception thrown while parsing one result aborts the
loop and the findings collected so far are returned. -/
def collectFindings (expectedFilePath : String) : List SarifResultItem → List Finding
  | [] => []
  | r :: rs =>
    match parseFinding r expectedFilePath with
    | .error _ => []
    | .ok none => collectFindings expectedFilePath rs
    | .ok (some f) => f :: collectFindings expectedFilePath rs

/-- `BlockSecOpsAction.java` `parseFindings` (lines 236-266): a GSON parse
failure (modelled as `none`), a missing or empty `runs` array, or a missing
`results` array yields the empty list; otherwise only `runs.get(0)` is
examined. -/
def parseFindings (decoded : Option SarifReport) (filePath : String) : List Finding :=
  match decoded with
  | none => []
  | some sarif =>
    match sarif.runs with
    | none => []
    | some [] => []
    | some (run :: _) =>
      match run.results with
      | none => []
      | some results => collectFindings filePath results

/-- Count of occurrences of `pat` as written by the `indexOf` loop of
`countFindings` (lines 112-121): each found position is counted and the
scan resumes one character later, so every occurrence position is counted. -/
def countOcc (pat : List Char) : List Char → Nat
  | [] => 0
  | c :: cs => (if pat.isPrefixOf (c :: cs) then 1 else 0) + countOcc pat cs

/-- `BlockSecOpsAction.java` `countFindings` (lines 112-121): count the
occurrences of the eight-character text `"ruleId"` (quotes included) in the
raw SARIF output. -/
def countFindings (sarifOutput : String) : Nat :=
  countOcc "\"ruleId\"".data sarifOutput.data

/-- The user-visible outcome of `handleScanResult` (lines 92-110). -/
inductive Notice where
  | noIssues
  | issuesFound (count : Nat)
  | scanFailed (code : Int)
  deriving DecidableEq, Repr

/-- `BlockSecOpsAction.java` `handleScanResult` (lines 92-110): exit 0 means
a clean scan, exit 1 reports `countFindings` of the raw output, anything
else is a scan failure. -/
def handleScanResult (exitCode : Int) (output : String) : Notice :=
  if exitCode = 0 then .noIssues
  else if exitCode = 1 then .issuesFound (countFindings output)
  else .scanFailed exitCode

end IntelliJ

/-! ## Spec-side comparison definitions -/

/-- The spec's message resolution order, stated in its words for comparison
with the implementations: the finding's own message text if non-empty,
otherwise the matching rule's short description if the ruleId is found in
the rule table, otherwise the literal ruleId string. -/
def specMessageResolution (messageText : Option String) (rules : List SarifRule)
    (ruleId : String) : String :=
  let fallback :=
    match (rules.find? fun rl => rl.id = ruleId).bind (·.shortDescription) with
    | some d => d
    | none => ruleId
  match messageText with
  | some t => if t ≠ "" then t else fallback
  | none => fallback

/-- Number of occurrences of `pat` anywhere in `text` (occurrence positions,
overlapping ones included): the count of suffixes of `text` that start with
`pat`. -/
def occurrencesCount (pat text : List Char) : Nat :=
  text.tails.countP fun t => pat.isPrefixOf t

/-- Whether a result has a non-empty `locations` array. -/
def hasLocations (r : SarifResultItem) : Bool :=
  match r.locations with
  | none => false
  | some [] => false
  | some (_ :: _) => true

/-- Remove from a report every result whose `locations` array is absent or
empty. -/
def dropNoLocationResults (sarif : SarifReport) : SarifReport :=
  { sarif with
    runs := sarif.runs.map fun runs =>
      runs.map fun run =>
        { run with results := run.results.map fun rs => rs.filter hasLocations } }

/-! ## Concrete fixtures -/

/-- A location at the given artifact URI and start line, with the other
region fields absent. -/
def locAt (uri : String) (line : Nat) : SarifLocation :=
  ⟨some ⟨some ⟨some uri⟩, some ⟨some line, none, none, none⟩⟩⟩

/-- A warning result with one location and message text "msg". -/
def itemAt (rid uri : String) (line : Nat) : SarifResultItem :=
  { ruleId := some rid, level := some "warning", messageText := some "msg"
    locations := some [locAt uri line] }

/-- A report with two runs, each holding one resolvable finding in `/f.sol`. -/
def exTwoRuns : SarifReport :=
  { version := some "2.1.0"
    runs := some [⟨none, some [itemAt "A" "/f.sol" 1]⟩, ⟨none, some [itemAt "B" "/f.sol" 2]⟩] }

/-- A one-run report whose two results reference two different files. -/
def exTwoFiles : SarifReport :=
  { version := some "2.1.0"
    runs := some [⟨none, some [itemAt "RA" "/A.sol" 3, itemAt "RB" "/B.sol" 4]⟩] }

/-- A diagnostic shown by a previous successful Neovim scan. -/
def exPriorFinding : Vim.Finding :=
  { filename := "/c.sol", lnum := 1, col := 1, end_lnum := none
    level := "error", message := "old", rule_id := "R0" }

/-- The rule of end-to-end scenario A. -/
def exReentrancyRule : SarifRule := ⟨"REENTRANCY-001", some "Reentrancy risk"⟩

/-- A result with empty message text whose rule is in the rule table. -/
def exEmptyMsgItem : SarifResultItem :=
  { ruleId := some "REENTRANCY-001", level := some "error", messageText := some ""
    locations := some [locAt "file:///c.sol" 10] }

/-- Scenario A's report: one run, one rule, one result with empty message. -/
def exReentrancyReport : SarifReport :=
  { version := some "2.1.0"
    runs := some [⟨some [exReentrancyRule], some [exEmptyMsgItem]⟩] }

/-- A region with a start column beyond the 999 end-column sentinel and no
`endLine`/`endColumn`. -/
def exWideRegion : Region := ⟨some 1, some 1000, none, none⟩

/-- Raw SARIF text whose rules table defines one rule and whose single
result has a resolvable location: the text `"ruleId"` occurs exactly once,
because rule entries carry `"id"`, not `"ruleId"`. -/
def exRulesText : String :=
  "\x7b\"version\":\"2.1.0\",\"runs\":[\x7b\"tool\":\x7b\"driver\":\x7b\"name\":\"blocksecops\",\"rules\":[\x7b\"id\":\"R1\",\"shortDescription\":\x7b\"text\":\"d\"\x7d\x7d]\x7d\x7d,\"results\":[\x7b\"ruleId\":\"R1\",\"level\":\"warning\",\"message\":\x7b\"text\":\"m\"\x7d,\"locations\":[\x7b\"physicalLocation\":\x7b\"artifactLocation\":\x7b\"uri\":\"/f.sol\"\x7d,\"region\":\x7b\"startLine\":1\x7d\x7d\x7d]\x7d]\x7d]\x7d"

/-- The structured form of `exRulesText`. -/
def exRulesReport : SarifReport :=
  { version := some "2.1.0"
    runs := some [⟨some [⟨"R1", some "d"⟩],
      some [{ ruleId := some "R1", level := some "warning", messageText := some "m"
              locations := some [locAt "/f.sol" 1] }]⟩] }

/-- Raw SARIF text whose single result lacks a `locations` array: the text
`"ruleId"` still occurs once. -/
def exNoLocText : String :=
  "\x7b\"version\":\"2.1.0\",\"runs\":[\x7b\"tool\":\x7b\"driver\":\x7b\"name\":\"blocksecops\"\x7d\x7d,\"results\":[\x7b\"ruleId\":\"R1\",\"level\":\"warning\",\"message\":\x7b\"text\":\"m\"\x7d\x7d]\x7d]\x7d"

/-- The structured form of `exNoLocText`. -/
def exNoLocReport : SarifReport :=
  { version := some "2.1.0"
    runs := some [⟨none,
      some [{ ruleId := some "R1", level := some "warning", messageText := some "m"
              locations := none }]⟩] }

/-! ## Helper lemmas -/

/-- Replacing the first occurrence of `pat` in `pat ++ l` yields `rep ++ l`. -/
theorem replaceFirstAux_self_append (pat rep l : List Char) :
    replaceFirstAux pat rep (pat ++ l) = rep ++ l := by
  match pat, l with
  | [], [] => simp [replaceFirstAux]
  | [], c :: cs => simp [replaceFirstAux]
  | p :: ps, l =>
    have hpre : (p :: ps).isPrefixOf ((p :: ps) ++ l) = true := by
      simp [List.isPrefixOf_iff_prefix]
    simp only [List.cons_append] at hpre ⊢
    simp only [replaceFirstAux, hpre, if_true]
    simp [List.drop_left' (show (p :: ps).length = ps.length + 1 by simp)]

/-- Draining the skip counter discards exactly that many characters without
scanning them. -/
theorem replaceAllGo_skip (pat rep : List Char) (l₁ l₂ : List Char) :
    replaceAllGo pat rep l₁.length (l₁ ++ l₂) = replaceAllGo pat rep 0 l₂ := by
  induction l₁ with
  | nil => rfl
  | cons a as ih =>
    rw [List.cons_append, List.length_cons, replaceAllGo]
    exact ih

/-- Replacing every occurrence of a non-empty `pat` in `pat ++ l` replaces
the leading occurrence and continues in `l`. -/
theorem replaceAllGo_self_append (pat rep l : List Char) (h : pat ≠ []) :
    replaceAllGo pat rep 0 (pat ++ l) = rep ++ replaceAllGo pat rep 0 l := by
  match pat, h with
  | p :: ps, _ =>
    have hpre : (p :: ps).isPrefixOf ((p :: ps) ++ l) = true := by
      simp [List.isPrefixOf_iff_prefix]
    simp only [List.cons_append] at hpre ⊢
    rw [replaceAllGo, if_pos hpre]
    simp only [List.length_cons, Nat.add_sub_cancel]
    rw [replaceAllGo_skip (p :: ps) rep ps l]

/-- The `indexOf` loop of `countFindings` counts exactly the occurrence
positions of a non-empty pattern. -/
theorem countOcc_eq_occurrencesCount (pat text : List Char) (h : pat ≠ []) :
    IntelliJ.countOcc pat text = occurrencesCount pat text := by
  induction text with
  | nil =>
    match pat, h with
    | p :: ps, _ => simp [IntelliJ.countOcc, occurrencesCount, List.isPrefixOf]
  | cons c cs ih =>
    rw [IntelliJ.countOcc, occurrencesCount, List.tails_cons, List.countP_cons]
    rw [occurrencesCount] at ih
    rw [ih, Nat.add_comm]

/-- Filtering out elements that the `filterMap` function rejects anyway does
not change the `filterMap`. -/
theorem filterMap_filter_eq_of_none {α β : Type} (p : α → Bool) (f : α → Option β)
    (h : ∀ a, p a = false → f a = none) (l : List α) :
    (l.filter p).filterMap f = l.filterMap f := by
  induction l with
  | nil => rfl
  | cons a as ih =>
    cases hp : p a with
    | true => simp [List.filter_cons, hp, List.filterMap_cons, ih]
    | false => simp [List.filter_cons, hp, List.filterMap_cons, h a hp, ih]

/-- Everything `parse_finding` puts into an emitted finding, apart from the
location data: the message, level and rule id defaults, and the fact that a
finding emitted under a file filter carries exactly the filter path. -/
theorem vim_parse_finding_char (result : SarifResultItem) (filt : Option String)
    (f : Vim.Finding) (h : Vim.parse_finding result filt = some f) :
    f.message = result.messageText.getD ""
    ∧ f.level = result.level.getD "warning"
    ∧ f.rule_id = result.ruleId.getD "unknown"
    ∧ (∀ ff, filt = some ff → f.filename = ff) := by
  cases hl : result.locations with
  | none => simp [Vim.parse_finding, hl] at h
  | some locs =>
    cases locs with
    | nil => simp [Vim.parse_finding, hl] at h
    | cons loc rest =>
      cases hp : loc.physicalLocation with
      | none => simp [Vim.parse_finding, hl, hp] at h
      | some phys =>
        cases filt with
        | none =>
          simp only [Vim.parse_finding, hl, hp] at h
          cases h
          refine ⟨rfl, rfl, rfl, ?_⟩
          intro ff hff
          exact Option.noConfusion hff
        | some ff =>
          simp only [Vim.parse_finding, hl, hp] at h
          split at h
          · exact Option.noConfusion h
          · rename_i hf
            cases h
            refine ⟨rfl, rfl, rfl, ?_⟩
            intro ff' hff'
            cases hff'
            simp at hf
            exact hf

/-- A result with an absent or empty `locations` array is rejected by
`parse_finding`. -/
theorem vim_parse_finding_none_of_no_locations (r : SarifResultItem)
    (filt : Option String) (h : hasLocations r = false) :
    Vim.parse_finding r filt = none := by
  cases hl : r.locations with
  | none => simp [Vim.parse_finding, hl]
  | some locs =>
    cases locs with
    | nil => simp [Vim.parse_finding, hl]
    | cons loc rest => simp [hasLocations, hl] at h

/-- Removing the no-location results from a run does not change what
`parse_run` emits. -/
theorem vim_parse_run_drop_no_locations (run : SarifRun) (filt : Option String) :
    Vim.parse_run { run with results := run.results.map fun rs => rs.filter hasLocations }
      filt = Vim.parse_run run filt := by
  cases hres : run.results with
  | none => simp [Vim.parse_run, hres]
  | some rs =>
    simp only [Vim.parse_run, hres, Option.map_some]
    exact filterMap_filter_eq_of_none hasLocations _
      (fun r hr => vim_parse_finding_none_of_no_locations r filt hr) rs

/-- C7: a finding whose locations array is absent or empty is excluded
entirely from normalization — it contributes zero findings in the Neovim and
IntelliJ parsers — and removing all such results from a report leaves the
Neovim normalizer output unchanged, so the excluded count is a deterministic
function of the report. -/
theorem c7_zero_location_findings_dropped :
    (∀ (r : SarifResultItem) (filt : Option String) (path : String),
        Vim.parse_finding { r with locations := none } filt = none
        ∧ Vim.parse_finding { r with locations := some [] } filt = none
        ∧ IntelliJ.parseFinding { r with locations := none } path = .ok none
        ∧ IntelliJ.parseFinding { r with locations := some [] } path = .ok none)
    ∧ (∀ (decoded : Option SarifReport) (filt : Option String),
        Vim.parse_sarif (decoded.map dropNoLocationResults) filt =
          Vim.parse_sarif decoded filt) := by
  constructor
  · intro r filt path
    exact ⟨rfl, rfl, rfl, rfl⟩
  · intro decoded filt
    cases decoded with
    | none => rfl
    | some sarif =>
      cases hruns : sarif.runs with
      | none => simp [Vim.parse_sarif, dropNoLocationResults, hruns]
      | some runs =>
        simp only [Option.map_some', Vim.parse_sarif, dropNoLocationResults, hruns]
        rw [List.flatMap_map]
        exact congrArg _ (funext fun run => vim_parse_run_drop_no_locations run filt)

/-- C8: a malformed JSON input (a failed decode) makes the Neovim normalizer
return the empty findings list rather than crash, and a report whose `runs`
is the empty array — or absent — normalizes to the empty sequence in all
three integrations. -/
theorem c8_malformed_json_and_empty_runs :
    (∀ filt : Option String, Vim.parse_sarif none filt = [])
    ∧ (∀ (v : Option String) (filt : Option String),
        Vim.parse_sarif (some { version := v, runs := none }) filt = [])
    ∧ (∀ (v : Option String) (filt : Option String),
        Vim.parse_sarif (some { version := v, runs := some [] }) filt = [])
    ∧ (∀ v : Option String,
        VSCode.updateDiagnostics { version := v, runs := some [] } = [])
    ∧ (∀ (v : Option String) (path : String),
        IntelliJ.parseFindings (some { version := v, runs := some [] }) path = [])
    ∧ (∀ path : String, IntelliJ.parseFindings none path = []) := by
  exact ⟨fun _ => rfl, fun _ _ => rfl, fun _ _ => rfl, fun _ => rfl, fun _ _ => rfl,
    fun _ => rfl⟩

/-- C9: an artifact URI carrying a `file://` scheme has the scheme removed
by all three integrations — VS Code and Neovim return exactly the remainder,
IntelliJ removes the leading occurrence and keeps scanning the remainder —
and in particular `file:///a/b/contract.sol` normalizes to
`/a/b/contract.sol` in each. -/
theorem c9_file_scheme_stripping :
    (∀ rest : String, vscodeStripScheme ("file://" ++ rest) = rest)
    ∧ (∀ rest : String, luaStripScheme ("file://" ++ rest) = rest)
    ∧ (∀ rest : String, intellijStripScheme ("file://" ++ rest) = replaceAll "file://" "" rest)
    ∧ vscodeStripScheme "file:///a/b/contract.sol" = "/a/b/contract.sol"
    ∧ luaStripScheme "file:///a/b/contract.sol" = "/a/b/contract.sol"
    ∧ intellijStripScheme "file:///a/b/contract.sol" = "/a/b/contract.sol" := by
  refine ⟨?_, ?_, ?_, by decide, by decide, by decide⟩
  · intro rest
    show String.mk (replaceFirstAux "file://".data [] ("file://".data ++ rest.data)) = rest
    rw [replaceFirstAux_self_append]
    rfl
  · intro rest
    show (if "file://".data.isPrefixOf ("file://".data ++ rest.data) then
        String.mk (("file://".data ++ rest.data).drop "file://".data.length)
      else "file://" ++ rest) = rest
    rw [if_pos (by simp [List.isPrefixOf_iff_prefix])]
    rw [List.drop_left]
  · intro rest
    show String.mk (replaceAllGo "file://".data [] 0 ("file://".data ++ rest.data)) =
      replaceAll "file://" "" rest
    rw [replaceAllGo_self_append _ _ _ (by decide)]
    rfl

/-- C3: severity mapping in the VS Code and Neovim integrations is a pure,
total function: `error`, `warning` and `note` map to their canonical
severities, any other level — empty, unrecognized or absent — maps to the
lowest `hint` severity, and nothing but the exact level `error` ever maps to
the `error` severity. -/
theorem c3_severity_mapping :
    (VSCode.mapSeverity (some "error") = Severity.error
      ∧ VSCode.mapSeverity (some "warning") = Severity.warning
      ∧ VSCode.mapSeverity (some "note") = Severity.information)
    ∧ (Vim.get_severity (some "error") = Severity.error
      ∧ Vim.get_severity (some "warning") = Severity.warning
      ∧ Vim.get_severity (some "note") = Severity.information)
    ∧ (∀ level : Option String, level ≠ some "error" → level ≠ some "warning" →
        level ≠ some "note" →
        VSCode.mapSeverity level = Severity.hint ∧ Vim.get_severity level = Severity.hint)
    ∧ (∀ level : Option String,
        VSCode.mapSeverity level = Severity.error → level = some "error")
    ∧ (∀ level : Option String,
        Vim.get_severity level = Severity.error → level = some "error") := by
  refine ⟨by decide, by decide, ?_, ?_, ?_⟩
  · intro level h1 h2 h3
    cases level with
    | none => exact ⟨rfl, rfl⟩
    | some l =>
      have e1 : ¬(l = "error") := fun h => h1 (by rw [h])
      have e2 : ¬(l = "warning") := fun h => h2 (by rw [h])
      have e3 : ¬(l = "note") := fun h => h3 (by rw [h])
      exact ⟨by simp [VSCode.mapSeverity, e1, e2, e3], by simp [Vim.get_severity, e1, e2, e3]⟩
  · intro level h
    cases level with
    | none => simp [VSCode.mapSeverity] at h
    | some l =>
      by_cases hl : l = "error"
      · rw [hl]
      · simp only [VSCode.mapSeverity, hl, if_false] at h
        split_ifs at h
  · intro level h
    cases level with
    | none => simp [Vim.get_severity] at h
    | some l =>
      by_cases hl : l = "error"
      · rw [hl]
      · simp only [Vim.get_severity, hl, if_false] at h
        split_ifs at h

/-- Witness for C3: the unrecognized level "unexpected-value" maps to the
hint severity in both integrations. -/
theorem c3_severity_mapping_witness :
    VSCode.mapSeverity (some "unexpected-value") = Severity.hint
    ∧ Vim.get_severity (some "unexpected-value") = Severity.hint :=
  c3_severity_mapping.2.2.1 (some "unexpected-value") (by decide) (by decide) (by decide)

/-- C5 (the exit-code gate): the VS Code layer resolves no report when the
exit code is 2 — independently of the captured stdout — and leaves the prior
diagnostics untouched; the Neovim layer notifies the failure, but its
diagnostic state after the scan is whatever `parse_sarif` makes of the
captured stdout, so with one prior diagnostic and unparseable stdout the
prior diagnostics are wiped. -/
theorem c5_exit_code_gating :
    (∀ (decodedStdout : Option SarifReport) (prior : List VSCode.Diagnostic),
        VSCode.runScan 2 decodedStdout = none
        ∧ VSCode.scanCurrentFile (VSCode.runScan 2 decodedStdout) prior = prior)
    ∧ (∀ (decodedStdout : Option SarifReport) (bufFile : String)
        (prior : List Vim.Finding),
        Vim.scan_current_file_diagnostics 2 decodedStdout bufFile prior =
          Vim.parse_sarif decodedStdout (some bufFile))
    ∧ Vim.scan_failure_notified 2 = true
    ∧ Vim.scan_current_file_diagnostics 2 none "/c.sol" [exPriorFinding] = []
    ∧ [exPriorFinding] ≠ ([] : List Vim.Finding) := by
  refine ⟨?_, fun _ _ _ => rfl, by decide, rfl, by decide⟩
  intro decodedStdout prior
  have h : VSCode.runScan 2 decodedStdout = none := by
    rw [VSCode.runScan, if_neg]
    decide
  exact ⟨h, by rw [h]; rfl⟩

/-- Counterexample for C10: a report whose rules table defines a rule and
whose single finding has a resolvable location gives a raw-text "ruleId"
count of 1 — rule entries carry "id", not "ruleId" — which equals, rather
than differs from, the canonical finding count produced by the all-runs
normalizers. -/
theorem c10_rules_table_count_not_different :
    IntelliJ.countFindings exRulesText = 1
    ∧ (Vim.parse_sarif (some exRulesReport) none).length = 1
    ∧ (VSCode.updateDiagnostics exRulesReport).length = 1
    ∧ IntelliJ.countFindings exRulesText = (Vim.parse_sarif (some exRulesReport) none).length := by
  refine ⟨by decide, by decide, by decide, by decide⟩

/-- C10 (amended): on exit code 1 the IntelliJ scan action reports exactly
the number of occurrences of the substring "ruleId" (quotes included)
anywhere in the raw SARIF text, and for some reports — for example one whose
finding is dropped for lacking locations — that count differs from the
number of canonical findings normalization would produce. -/
theorem c10_reported_count :
    (∀ output : String,
        IntelliJ.handleScanResult 1 output =
          IntelliJ.Notice.issuesFound (occurrencesCount "\"ruleId\"".data output.data))
    ∧ IntelliJ.countFindings exNoLocText = 1
    ∧ Vim.parse_sarif (some exNoLocReport) none = []
    ∧ VSCode.updateDiagnostics exNoLocReport = []
    ∧ IntelliJ.countFindings exNoLocText ≠ (Vim.parse_sarif (some exNoLocReport) none).length := by
  refine ⟨?_, by decide, by decide, by decide, by decide⟩
  intro output
  have h1 : IntelliJ.handleScanResult 1 output =
      .issuesFound (IntelliJ.countFindings output) := by
    simp [IntelliJ.handleScanResult]
  rw [h1, IntelliJ.countFindings, countOcc_eq_occurrencesCount _ _ (by decide)]

/-- Counterexample for C4: the region with `startLine` 1 and `startColumn`
1000 and no `endColumn` resolves, in the VS Code integration, to the fixed
end column 999, which is smaller than its start column. -/
theorem c4_end_column_sentinel_violation :
    exWideRegion.endColumn = none
    ∧ VSCode.resEndColumn (some exWideRegion) = 999
    ∧ VSCode.resStartColumn (some exWideRegion) = 1000
    ∧ VSCode.resEndColumn (some exWideRegion) < VSCode.resStartColumn (some exWideRegion) := by
  refine ⟨rfl, by decide, by decide, by decide⟩

/-- C4 (amended): in the VS Code integration a missing `startLine` defaults
to 1, a missing `startColumn` defaults to 1, a missing `endLine` defaults to
the resolved start line and a missing `endColumn` defaults to the fixed
sentinel 999, so the resolved end column of a region without `endColumn` is
at least the sentinel floor, and at least the start column whenever the
start column does not exceed 999; the IntelliJ integration instead defaults
a missing `startColumn` to 0. -/
theorem c4_region_defaulting :
    (∀ reg : Region, reg.startLine = none → VSCode.resStartLine (some reg) = 1)
    ∧ (∀ reg : Region, reg.startColumn = none → VSCode.resStartColumn (some reg) = 1)
    ∧ (∀ reg : Region, reg.endLine = none →
        VSCode.resEndLine (some reg) = VSCode.resStartLine (some reg))
    ∧ (∀ reg : Region, reg.endColumn = none → VSCode.resEndColumn (some reg) = 999)
    ∧ (∀ reg : Region, reg.endColumn = none → 999 ≤ VSCode.resEndColumn (some reg))
    ∧ (∀ reg : Region, reg.endColumn = none → reg.startColumn.getD 1 ≤ 999 →
        VSCode.resStartColumn (some reg) ≤ VSCode.resEndColumn (some reg))
    ∧ (∀ reg : Region, reg.startColumn = none →
        IntelliJ.parseFinding
          { ruleId := none, level := none, messageText := none
            locations := some [⟨some ⟨none, some reg⟩⟩] } "" =
          .ok (some ⟨"unknown", "warning", "",
            reg.startLine.getD 1, reg.endLine.getD (reg.startLine.getD 1), 0⟩)) := by
  refine ⟨?_, ?_, ?_, ?_, ?_, ?_, ?_⟩
  · intro reg h
    simp [VSCode.resStartLine, VSCode.jsOrNat, h]
  · intro reg h
    simp [VSCode.resStartColumn, VSCode.jsOrNat, h]
  · intro reg h
    simp [VSCode.resEndLine, VSCode.jsOrNat, h]
  · intro reg h
    simp [VSCode.resEndColumn, VSCode.jsOrNat, h]
  · intro reg h
    simp [VSCode.resEndColumn, VSCode.jsOrNat, h]
  · intro reg h hsc
    have he : VSCode.resEndColumn (some reg) = 999 := by
      simp [VSCode.resEndColumn, VSCode.jsOrNat, h]
    rw [he]
    cases hs : reg.startColumn with
    | none => simp [VSCode.resStartColumn, VSCode.jsOrNat, hs]
    | some n =>
      rw [hs] at hsc
      simp only [Option.getD_some] at hsc
      simp only [VSCode.resStartColumn, VSCode.jsOrNat, hs, Option.some_bind]
      split_ifs <;> omega
  · intro reg hsc
    simp [IntelliJ.parseFinding, hsc]

/-- Witness for C4 (amended): a region without `startColumn` resolves start
column 1, and a region with `startColumn` 10 and no `endColumn` resolves an
end column at least its start column. -/
theorem c4_region_defaulting_witness :
    VSCode.resStartColumn (some (⟨some 1, none, none, some 5⟩ : Region)) = 1
    ∧ VSCode.resStartColumn (some (⟨some 1, some 10, none, none⟩ : Region)) ≤
        VSCode.resEndColumn (some (⟨some 1, some 10, none, none⟩ : Region)) :=
  ⟨c4_region_defaulting.2.1 ⟨some 1, none, none, some 5⟩ rfl,
   c4_region_defaulting.2.2.2.2.2.1 ⟨some 1, some 10, none, none⟩ rfl (by decide)⟩

/-- C2: under a file filter a finding is retained only when its stripped
path equals the filter path or the filter path ends with it — in the
IntelliJ parser by exactly that two-way test, in the Neovim parser by plain
equality, which implies the disjunction — a no-match is a silent skip, not
an error, and filtering the two-file report by file A's path yields exactly
file A's finding in both parsers. -/
theorem c2_file_filter_retention :
    (∀ (rid lvl msg : Option String) (reg : Option Region) (rest : List SarifLocation)
        (u path : String) (f : IntelliJ.Finding),
        IntelliJ.parseFinding
          { ruleId := rid, level := lvl, messageText := msg
            locations := some
              ({ physicalLocation :=
                  some { artifactLocation := some { uri := some u }, region := reg } } :: rest) }
          path = .ok (some f) →
        (intellijStripScheme u = path ∨ strEndsWith path (intellijStripScheme u) = true))
    ∧ (∀ (rid lvl msg : Option String) (reg : Option Region) (rest : List SarifLocation)
        (u path : String),
        ¬(intellijStripScheme u = path ∨ strEndsWith path (intellijStripScheme u) = true) →
        IntelliJ.parseFinding
          { ruleId := rid, level := lvl, messageText := msg
            locations := some
              ({ physicalLocation :=
                  some { artifactLocation := some { uri := some u }, region := reg } } :: rest) }
          path = .ok none)
    ∧ (∀ (result : SarifResultItem) (ff : String) (f : Vim.Finding),
        Vim.parse_finding result (some ff) = some f →
        (f.filename = ff ∨ strEndsWith ff f.filename = true))
    ∧ Vim.parse_sarif (some exTwoFiles) (some "/A.sol") =
        [⟨"/A.sol", 3, 1, none, "warning", "msg", "RA"⟩]
    ∧ IntelliJ.parseFindings (some exTwoFiles) "/A.sol" =
        [⟨"RA", "warning", "msg", 3, 3, 0⟩] := by
  refine ⟨?_, ?_, ?_, by decide, by decide⟩
  · intro rid lvl msg reg rest u path f h
    by_cases hc : intellijStripScheme u = path ∨ strEndsWith path (intellijStripScheme u) = true
    · exact hc
    · simp only [IntelliJ.parseFinding] at h
      rw [if_neg hc] at h
      exact Option.noConfusion (Except.ok.inj h)
  · intro rid lvl msg reg rest u path hc
    simp only [IntelliJ.parseFinding]
    rw [if_neg hc]
  · intro result ff f h
    exact Or.inl ((vim_parse_finding_char result (some ff) f h).2.2.2 ff rfl)

/-- Witness for C2: the retained finding of the two-file report satisfies
the equality-or-suffix filter test. -/
theorem c2_file_filter_retention_witness :
    intellijStripScheme "/A.sol" = "/A.sol"
    ∨ strEndsWith "/A.sol" (intellijStripScheme "/A.sol") = true :=
  c2_file_filter_retention.1 (some "RA") (some "warning") (some "msg")
    (some ⟨some 3, none, none, none⟩) [] "/A.sol" "/A.sol"
    ⟨"RA", "warning", "msg", 3, 3, 0⟩ (by decide)

/-- Counterexample for C6: on a result with empty message text whose rule is
in the rule table with a non-empty short description, the Neovim parser
emits the empty message — not the rule's short description that the stated
resolution order requires. -/
theorem c6_lua_message_no_fallback :
    Vim.parse_sarif (some exReentrancyReport) none =
      [⟨"/c.sol", 10, 1, none, "error", "", "REENTRANCY-001"⟩]
    ∧ specMessageResolution (some "") [exReentrancyRule] "REENTRANCY-001" = "Reentrancy risk"
    ∧ ("" : String) ≠ "Reentrancy risk" := by
  refine ⟨by decide, by decide, by decide⟩

/-- C6 (amended): in the VS Code integration the display message is the
finding's own message text when non-empty, otherwise the matching rule's
short description when the ruleId is in the rule table with a non-empty
description, otherwise the literal ruleId — an unmatched ruleId yields the
ruleId, never an error; the Neovim integration instead always uses the
finding's own message text, defaulting to the empty string. -/
theorem c6_message_resolution :
    (∀ (item : SarifResultItem) (rules : List SarifRule) (t : String),
        item.messageText = some t → t ≠ "" →
        VSCode.resolveMessage item rules = some t)
    ∧ (∀ (item : SarifResultItem) (rules : List SarifRule) (id : String)
        (rl : SarifRule) (d : String),
        (item.messageText = none ∨ item.messageText = some "") →
        item.ruleId = some id → VSCode.rulesLookup rules id = some rl →
        rl.shortDescription = some d → d ≠ "" →
        VSCode.resolveMessage item rules = some d)
    ∧ (∀ (item : SarifResultItem) (rules : List SarifRule) (id : String),
        (item.messageText = none ∨ item.messageText = some "") →
        item.ruleId = some id → VSCode.rulesLookup rules id = none →
        VSCode.resolveMessage item rules = some id)
    ∧ (∀ (result : SarifResultItem) (filt : Option String) (f : Vim.Finding),
        Vim.parse_finding result filt = some f →
        f.message = result.messageText.getD "")
    ∧ VSCode.resolveMessage exEmptyMsgItem [exReentrancyRule] = some "Reentrancy risk" := by
  refine ⟨?_, ?_, ?_, ?_, by decide⟩
  · intro item rules t hmt hne
    simp [VSCode.resolveMessage, VSCode.nonEmpty, hmt, hne]
  · intro item rules id rl d hmt hid hrl hd hne
    rcases hmt with h | h <;>
      simp [VSCode.resolveMessage, VSCode.nonEmpty, h, hid, hrl, hd, hne]
  · intro item rules id hmt hid hrl
    rcases hmt with h | h <;>
      simp [VSCode.resolveMessage, VSCode.nonEmpty, h, hid, hrl]
  · intro result filt f h
    exact (vim_parse_finding_char result filt f h).1

/-- Witness for C6 (amended): scenario A's empty-text result resolves to the
rule's short description in the VS Code integration. -/
theorem c6_message_resolution_witness :
    VSCode.resolveMessage exEmptyMsgItem [exReentrancyRule] = some "Reentrancy risk" :=
  c6_message_resolution.2.1 exEmptyMsgItem [exReentrancyRule] "REENTRANCY-001"
    exReentrancyRule "Reentrancy risk" (Or.inr (by decide)) (by decide) (by decide)
    (by decide) (by decide)

/-- Counterexample for C1: on a report with two runs, each holding one
finding whose single location has a resolvable artifact URI and a present
region, the IntelliJ parser emits only the first run's finding — the second
run's location yields nothing, so normalize does not iterate all runs. -/
theorem c1_intellij_drops_second_run :
    IntelliJ.parseFindings (some exTwoRuns) "/f.sol" =
      [⟨"A", "warning", "msg", 1, 1, 0⟩]
    ∧ (IntelliJ.parseFindings (some exTwoRuns) "/f.sol").length ≠ 2 := by
  refine ⟨by decide, by decide⟩

/-- C1 (amended): the VS Code normalizer iterates all runs and all findings
and fans out one diagnostic per location, so every location with a
resolvable artifact URI yields a diagnostic; the Neovim normalizer iterates
all runs and all findings but reads only the first location of each finding;
the IntelliJ normalizer reads only the first run and only the first location
of each finding. -/
theorem c1_run_and_location_iteration :
    (∀ (rpt : SarifReport) (run : SarifRun) (item : SarifResultItem)
        (loc : SarifLocation) (phys : PhysicalLocation) (u : String),
        run ∈ rpt.runs.getD [] → item ∈ run.results.getD [] →
        loc ∈ item.locations.getD [] →
        loc.physicalLocation = some phys →
        phys.artifactLocation.bind (·.uri) = some u → u ≠ "" →
        ∃ d ∈ VSCode.updateDiagnostics rpt,
          d.uri = vscodeStripScheme u ∧ d.code = item.ruleId
          ∧ d.severity = VSCode.mapSeverity item.level)
    ∧ (∀ (sarif : SarifReport) (runs : List SarifRun) (run : SarifRun)
        (results : List SarifResultItem) (result : SarifResultItem)
        (filt : Option String) (f : Vim.Finding),
        sarif.runs = some runs → run ∈ runs → run.results = some results →
        result ∈ results → Vim.parse_finding result filt = some f →
        f ∈ Vim.parse_sarif (some sarif) filt)
    ∧ (∀ (result : SarifResultItem) (loc0 : SarifLocation)
        (rest : List SarifLocation) (filt : Option String),
        Vim.parse_finding { result with locations := some (loc0 :: rest) } filt =
          Vim.parse_finding { result with locations := some [loc0] } filt)
    ∧ (∀ (v : Option String) (run0 : SarifRun) (rest : List SarifRun) (path : String),
        IntelliJ.parseFindings (some { version := v, runs := some (run0 :: rest) }) path =
          IntelliJ.parseFindings (some { version := v, runs := some [run0] }) path)
    ∧ (∀ (result : SarifResultItem) (loc0 : SarifLocation)
        (rest : List SarifLocation) (path : String),
        IntelliJ.parseFinding { result with locations := some (loc0 :: rest) } path =
          IntelliJ.parseFinding { result with locations := some [loc0] } path) := by
  refine ⟨?_, ?_, fun _ _ _ _ => rfl, fun _ _ _ _ => rfl, fun _ _ _ _ => rfl⟩
  · intro rpt run item loc phys u hrun hitem hloc hphys huri hne
    refine ⟨{ uri := vscodeStripScheme u
              startLine := VSCode.resStartLine phys.region - 1
              startColumn := VSCode.resStartColumn phys.region - 1
              endLine := VSCode.resEndLine phys.region - 1
              endColumn := VSCode.resEndColumn phys.region - 1
              severity := VSCode.mapSeverity item.level
              message := VSCode.resolveMessage item (run.rules.getD [])
              code := item.ruleId }, ?_, rfl, rfl, rfl⟩
    rw [VSCode.updateDiagnostics]
    apply List.mem_flatMap_of_mem hrun
    apply List.mem_flatMap_of_mem hitem
    rw [VSCode.createDiagnosticsForResult]
    apply List.mem_filterMap.mpr
    refine ⟨loc, hloc, ?_⟩
    simp only [hphys, huri, if_neg hne]
  · intro sarif runs run results result filt f hruns hrun hresults hresult hpf
    simp only [Vim.parse_sarif, hruns]
    apply List.mem_flatMap_of_mem hrun
    simp only [Vim.parse_run, hresults]
    exact List.mem_filterMap.mpr ⟨result, hresult, hpf⟩

/-- Witness for C1 (amended): in the two-file report, file B's location
yields a VS Code diagnostic with the stripped URI and the rule id `RB`. -/
theorem c1_run_and_location_iteration_witness :
    ∃ d ∈ VSCode.updateDiagnostics exTwoFiles,
      d.uri = vscodeStripScheme "/B.sol" ∧ d.code = some "RB"
      ∧ d.severity = VSCode.mapSeverity (some "warning") :=
  c1_run_and_location_iteration.1 exTwoFiles
    ⟨none, some [itemAt "RA" "/A.sol" 3, itemAt "RB" "/B.sol" 4]⟩
    (itemAt "RB" "/B.sol" 4) (locAt "/B.sol" 4)
    ⟨some ⟨some "/B.sol"⟩, some ⟨some 4, none, none, none⟩⟩ "/B.sol"
    (by decide) (by decide) (by decide) (by decide) (by decide) (by decide)
